import Mathlib

/-!
# kube-graffiti: the admission webhook handler

A shallow embedding of `pkg/webhook/handler.go` (`graffitiHandler.ServeHTTP`) and the
properties of its request pipeline: method check, content-type check, strict
decoding of the AdmissionReview, lookup of the mutator by URL path, assembly of
the response envelope and its transmission.

What the handler calls but does not define is passed in:

* `encoding/json` (decoding into, and marshalling of, an `AdmissionReview`) is the
  parameter `EncodingJSON`; `GoJSON` is the instance that looks up struct fields for object
  keys the way the decoder of `encoding/json` does;
* a registered rule is a `graffitiMutator`, the interface of the source;
* the `http.ResponseWriter` is the record `ResponseWriter` with the three
  operations the handler uses.

Logging is left out: it does not touch the request, the response or the control
flow.  A nil pointer dereference is the outcome `Outcome.panicked`.
-/

namespace Webhook

deriving instance DecidableEq for Except

/-! ## Byte strings -/

/-- A Go byte slice.  The nil slice and the empty slice are both `[]`. -/
abbrev Bytes := List UInt8

/-- The bytes of a Go string literal (Go source text is UTF-8). -/
def bytesOf (s : String) : Bytes := s.toUTF8.data.toList

/-! ## The Kubernetes wire types (`k8s.io/api/admission/v1beta1`)

The types are declared outside the repository.  The records below keep the fields
the handler reads or writes and the fields of the decision; the remaining
metadata of a request (kind, resource, user info) is never touched by the handler
and is not represented. -/

/-- The type `runtime.RawExtension`: an opaque JSON blob; the zero value has no bytes. -/
structure RawExtension where
  Raw : Bytes := []
deriving DecidableEq, Repr

/-- The type `metav1.Status`, the structured result of a decision. -/
structure Status where
  Message : String := ""
  Reason : String := ""
  Code : Int := 0
deriving DecidableEq, Repr

/-- The type `admission.AdmissionRequest`. -/
structure AdmissionRequest where
  UID : String := ""
  Name : String := ""
  Namespace : String := ""
  Operation : String := ""
  Object : RawExtension := {}
  OldObject : RawExtension := {}
deriving DecidableEq, Repr

/-- The type `admission.AdmissionResponse`; the zero value is `&admission.AdmissionResponse{}`. -/
structure AdmissionResponse where
  UID : String := ""
  Allowed : Bool := false
  Result : Option Status := none
  Patch : Bytes := []
  PatchType : Option String := none
deriving DecidableEq, Repr

/-- The type `admission.AdmissionReview`: the envelope.  `Request` and `Response` are pointers,
`none` is the nil pointer; the zero value is `admission.AdmissionReview{}`. -/
structure AdmissionReview where
  Kind : String := ""
  APIVersion : String := ""
  Request : Option AdmissionRequest := none
  Response : Option AdmissionResponse := none
deriving DecidableEq, Repr

/-! ## `net/http` -/

/-- The constant `http.StatusOK`. -/
def StatusOK : Nat := 200

/-- The constant `http.StatusBadRequest`. -/
def StatusBadRequest : Nat := 400

/-- The constant `http.StatusMethodNotAllowed`. -/
def StatusMethodNotAllowed : Nat := 405

/-- The type `http.Header`: canonical header name to its values. -/
structure Header where
  entries : List (String × List String) := []
deriving DecidableEq, Repr

/-- The method `Header.Get`: the first value stored under the key, `""` when there is none. -/
def Header.Get (h : Header) (key : String) : String :=
  match h.entries.lookup key with
  | some (v :: _) => v
  | _ => ""

/-- The method `Header.Set`: replaces whatever is stored under the key by the single value. -/
def Header.Set (h : Header) (key value : String) : Header :=
  ⟨(key, [value]) :: h.entries.filter (fun e => e.1 ≠ key)⟩

/-- The field `r.Body`, as `ioutil.ReadAll` sees it. -/
inductive Body where
  /-- the field is nil -/
  | absent
  /-- the method `ReadAll` returns an error -/
  | unreadable
  /-- the method `ReadAll` returns the data -/
  | data (b : Bytes)
deriving DecidableEq, Repr

/-- The type `url.URL`, of which the handler reads `Path`. -/
structure URL where
  Path : String := ""
deriving DecidableEq, Repr

/-- The type `http.Request`, with the fields that decide the handler's behaviour. -/
structure Request where
  Method : String := "GET"
  URL : URL := {}
  Header : Header := {}
  Body : Body := Body.absent
deriving DecidableEq, Repr

/-- The type `http.ResponseWriter`.  `header` is the map `Header()` returns; `status` and `sent`
are the status line and the headers that went out with the first `WriteHeader`;
`headerWrites` counts the calls of `WriteHeader`; `body` is what was written. -/
structure ResponseWriter where
  header : Header := {}
  wroteHeader : Bool := false
  status : Nat := 0
  sent : Header := {}
  headerWrites : Nat := 0
  body : Bytes := []
deriving DecidableEq, Repr

/-- The writer the server hands to the handler: nothing set, nothing written. -/
def ResponseWriter.fresh : ResponseWriter := {}

/-- The call `w.Header().Set(key, value)`. -/
def ResponseWriter.setHeader (w : ResponseWriter) (key value : String) : ResponseWriter :=
  { w with header := w.header.Set key value }

/-- The call `w.WriteHeader(code)`: the first call fixes the status line and the headers, a later
call changes nothing on the wire. -/
def ResponseWriter.WriteHeader (w : ResponseWriter) (code : Nat) : ResponseWriter :=
  if w.wroteHeader then
    { w with headerWrites := w.headerWrites + 1 }
  else
    { w with wroteHeader := true, status := code, sent := w.header,
             headerWrites := w.headerWrites + 1 }

/-- The call `w.Write(b)`: sends the header with status 200 first when none was sent. -/
def ResponseWriter.Write (w : ResponseWriter) (b : Bytes) : ResponseWriter :=
  let w1 := if w.wroteHeader then w else w.WriteHeader StatusOK
  { w1 with body := w1.body ++ b }

/-- The call `io.WriteString(w, s)`. -/
def ResponseWriter.WriteString (w : ResponseWriter) (s : String) : ResponseWriter :=
  w.Write (bytesOf s)

/-! ## `encoding/json` -/

/-- The type `json.Decoder`: the input it reads and the flag `DisallowUnknownFields` sets. -/
structure Decoder where
  input : Bytes := []
  disallowUnknownFields : Bool := false
deriving DecidableEq, Repr

/-- The call `json.NewDecoder(bytes.NewReader(body))`. -/
def NewDecoder (body : Bytes) : Decoder := { input := body }

/-- The call `d.DisallowUnknownFields()`. -/
def Decoder.DisallowUnknownFields (d : Decoder) : Decoder :=
  { d with disallowUnknownFields := true }

/-- An error value returned by `encoding/json`. -/
structure JSONError where
  msg : String
deriving DecidableEq, Repr

/-- The two entry points of `encoding/json` the handler calls, at the type `AdmissionReview`:
`d.Decode(&ar)` returns the decoded envelope or an error, `json.Marshal(response)` returns the
bytes or an error (with a nil slice). -/
structure EncodingJSON where
  Decode : Decoder → Except JSONError AdmissionReview
  Marshal : AdmissionReview → Except JSONError Bytes

/-- The first result of `json.Marshal(v)`: the bytes, or the nil slice when it fails. -/
def EncodingJSON.marshalled (json : EncodingJSON) (v : AdmissionReview) : Bytes :=
  match json.Marshal v with
  | Except.ok b => b
  | Except.error _ => []

/-! ## `encoding/json`: decoding a JSON value into a struct

The decoder of `encoding/json` first scans one JSON value from its input and then walks that
value along the Go type it decodes into.  While it walks an object into a struct it looks up
the field for each key, first by the exact name and then ignoring letter case; with
`DisallowUnknownFields` set, a key without a field is an error.  The walk is modelled below.
The scanner, the declaration of the `AdmissionReview` type and the construction of the
decoded value are passed in (`GoJSON`). -/

mutual
/-- The shape of a Go type, as far as the walk of the decoder depends on it. -/
inductive GoType where
  /-- a type without a struct below it: a string, a bool, a number, a byte slice, an interface,
  or a type with its own `UnmarshalJSON` such as `runtime.RawExtension` -/
  | leaf
  /-- a struct, or a pointer to one, with its JSON fields (those of embedded structs inlined) -/
  | struct (fields : Fields)
  /-- a slice of the element type -/
  | list (elem : GoType)
  /-- a map from strings to the element type -/
  | dict (elem : GoType)
/-- The JSON fields of a struct, in the order of declaration. -/
inductive Fields where
  | nil
  | cons (name : String) (type : GoType) (rest : Fields)
end

mutual
/-- A JSON value, as scanned: object keys and strings are unquoted, members and elements are
in the order of the text, duplicates included. -/
inductive JSON where
  | null
  | bool (b : Bool)
  | number (literal : String)
  | string (s : String)
  | array (xs : Elems)
  | object (ms : Members)
/-- The elements of a JSON array. -/
inductive Elems where
  | nil
  | cons (x : JSON) (rest : Elems)
/-- The members of a JSON object. -/
inductive Members where
  | nil
  | cons (key : String) (value : JSON) (rest : Members)
end

/-- The fields with the given names and types. -/
def Fields.ofList : List (String × GoType) → Fields
  | [] => Fields.nil
  | (n, t) :: rest => Fields.cons n t (Fields.ofList rest)

/-- The names of the fields. -/
def Fields.names : Fields → List String
  | Fields.nil => []
  | Fields.cons n _ rest => n :: rest.names

/-- The members of an object as a list. -/
def Members.toList : Members → List (String × JSON)
  | Members.nil => []
  | Members.cons k v rest => (k, v) :: rest.toList

/-- The elements of an array as a list. -/
def Elems.toList : Elems → List JSON
  | Elems.nil => []
  | Elems.cons x rest => x :: rest.toList

/-- The representative of a character under simple case folding, for the comparison with an
ASCII field name: the letters `A` to `Z` fold to lower case, the Kelvin sign (U+212A) folds
to `k` and the long s (U+017F) folds to `s`; nothing else folds to an ASCII character. -/
def foldRune (c : Char) : Char :=
  if c = Char.ofNat 0x212A then 'k'
  else if c = Char.ofNat 0x17F then 's'
  else c.toLower

/-- Whether a key equals a field name when letter case is ignored (the `equalFold` of a field
in `encoding/json`; field names are ASCII). -/
def equalFold (name key : String) : Bool :=
  name.toList.map foldRune = key.toList.map foldRune

/-- The first field whose name is exactly the key. -/
def Fields.exact : Fields → String → Option GoType
  | Fields.nil, _ => none
  | Fields.cons n t rest, key => if n = key then some t else rest.exact key

/-- The first field whose name equals the key ignoring letter case. -/
def Fields.folded : Fields → String → Option GoType
  | Fields.nil, _ => none
  | Fields.cons n t rest, key => if equalFold n key then some t else rest.folded key

/-- The field the decoder picks for a key: an exact match is preferred, a match ignoring
letter case is accepted. -/
def findField (fs : Fields) (key : String) : Option GoType :=
  match fs.exact key with
  | some t => some t
  | none => fs.folded key

mutual
/-- The keys the walk finds without a field, in the order it meets them.  An object is walked
into a struct member by member, an array into a slice element by element, an object into a
map value by value; any other pairing of type and value has no struct below it. -/
def unknownFields : GoType → JSON → List String
  | GoType.struct fs, JSON.object ms => unknownMembers fs ms
  | GoType.list e, JSON.array xs => unknownElems e xs
  | GoType.dict e, JSON.object ms => unknownEntries e ms
  | _, _ => []
/-- The walk of the members of an object into a struct. -/
def unknownMembers (fs : Fields) : Members → List String
  | Members.nil => []
  | Members.cons k v rest =>
    (match findField fs k with
     | none => [k]
     | some t => unknownFields t v) ++ unknownMembers fs rest
/-- The walk of the elements of an array into a slice. -/
def unknownElems (e : GoType) : Elems → List String
  | Elems.nil => []
  | Elems.cons x rest => unknownFields e x ++ unknownElems e rest
/-- The walk of the values of an object into a map. -/
def unknownEntries (e : GoType) : Members → List String
  | Members.nil => []
  | Members.cons _ v rest => unknownFields e v ++ unknownEntries e rest
end

/-- What the model of the decoder takes from outside: `parse` is the scanner (the JSON value
the input holds, or the syntax error), `schema` is the shape of the `AdmissionReview` type,
`build` is the decoding of a scanned value when unknown keys are ignored (the envelope, or
the type error), `Marshal` is `json.Marshal`. -/
structure GoJSON where
  parse : Bytes → Except JSONError JSON
  schema : GoType
  build : JSON → Except JSONError AdmissionReview
  Marshal : AdmissionReview → Except JSONError Bytes

/-- The call `d.Decode(&ar)`: the input is scanned; with `DisallowUnknownFields` set, the first
key without a field is an error; otherwise the result is that of the decoding that ignores
unknown keys.  When a value has both a type error and a key without a field, the decoder
returns the one it met first; either way it returns an error, which is all the handler
tests. -/
def GoJSON.Decode (g : GoJSON) (d : Decoder) : Except JSONError AdmissionReview :=
  match g.parse d.input with
  | Except.error err => Except.error err
  | Except.ok j =>
    if d.disallowUnknownFields then
      match unknownFields g.schema j with
      | k :: _ => Except.error ⟨"json: unknown field \"" ++ k ++ "\""⟩
      | [] => g.build j
    else g.build j

/-- The decoder and the marshaller as the handler sees them. -/
def GoJSON.toEncodingJSON (g : GoJSON) : EncodingJSON :=
  { Decode := g.Decode, Marshal := g.Marshal }

/-- A key, met where an object is decoded into a struct, that is `same` as the name of no field
of that struct.  The four rules: the key is a member of the object itself; or it lies in the
value of a member, below the field the decoder picks for that member; or in an element of an
array decoded into a slice; or in a value of an object decoded into a map. -/
inductive KeyOutside (same : String → String → Bool) : GoType → JSON → Prop where
  | key (fs : Fields) (ms : Members) (k : String) (v : JSON) :
      (k, v) ∈ ms.toList → (∀ n ∈ fs.names, same n k = false) →
      KeyOutside same (GoType.struct fs) (JSON.object ms)
  | field (fs : Fields) (ms : Members) (k : String) (v : JSON) (t : GoType) :
      (k, v) ∈ ms.toList → findField fs k = some t → KeyOutside same t v →
      KeyOutside same (GoType.struct fs) (JSON.object ms)
  | elem (e : GoType) (xs : Elems) (x : JSON) :
      x ∈ xs.toList → KeyOutside same e x →
      KeyOutside same (GoType.list e) (JSON.array xs)
  | entry (e : GoType) (ms : Members) (k : String) (v : JSON) :
      (k, v) ∈ ms.toList → KeyOutside same e v →
      KeyOutside same (GoType.dict e) (JSON.object ms)

/-- The value contains a field that is not in the schema: a key that is the name of no field,
names compared as they are written. -/
def FieldNotInSchema (schema : GoType) (j : JSON) : Prop :=
  KeyOutside (fun name key => decide (name = key)) schema j

/-- The value contains a key that matches no field of the schema even when letter case is
ignored. -/
def FieldUnmatched (schema : GoType) (j : JSON) : Prop :=
  KeyOutside (fun name key => decide (name = key) || equalFold name key) schema j

/-! ## The handler -/

/-- The interface `graffitiMutator`: `MutateAdmission(req)` takes the request pointer (`none` is
nil) and returns the response pointer (`none` is nil).  The mutator holds the pointer while it
runs and may write through it: `after req` is the request the pointer refers to when the call
returns, for a call entered with `req` (a nil pointer has nothing to write to).  A mutator
that only reads the request has `after = id`.  Mutators return normally. -/
structure graffitiMutator where
  MutateAdmission : Option AdmissionRequest → Option AdmissionResponse
  after : AdmissionRequest → AdmissionRequest := id

/-- The type `graffitiHandler`: `tagmap` maps a URL path to its mutator; the first entry with a
key is the one the map holds. -/
structure graffitiHandler where
  tagmap : List (String × graffitiMutator) := []

/-- The constructor `newGraffitiHandler`: the empty map. -/
def newGraffitiHandler : graffitiHandler := { tagmap := [] }

/-- The method `addRule`: `h.tagmap[path] = rule`. -/
def graffitiHandler.addRule (h : graffitiHandler) (path : String) (rule : graffitiMutator) :
    graffitiHandler :=
  { tagmap := (path, rule) :: h.tagmap.filter (fun e => e.1 ≠ path) }

/-- A call the handler makes to a collaborator, with its argument. -/
inductive Call where
  /-- the call `d.Decode(&ar)` on the decoder `d` -/
  | Decode (d : Decoder)
  /-- the call `mutator.MutateAdmission(req)` of the mutator registered under `path` -/
  | MutateAdmission (path : String) (req : Option AdmissionRequest)
  /-- the call `json.Marshal(v)` -/
  | Marshal (v : AdmissionReview)
deriving DecidableEq, Repr

/-- Whether the call is a `Decode`. -/
def Call.isDecode : Call → Bool
  | Call.Decode _ => true
  | _ => false

/-- Whether the call is a `MutateAdmission`. -/
def Call.isMutate : Call → Bool
  | Call.MutateAdmission _ _ => true
  | _ => false

/-- Whether the call is a `Marshal`. -/
def Call.isMarshal : Call → Bool
  | Call.Marshal _ => true
  | _ => false

/-- The state when `ServeHTTP` stops: the response writer, the calls made in order, and the
local `ar` (`none` while nothing was decoded). -/
structure Exec where
  w : ResponseWriter
  calls : List Call
  ar : Option AdmissionReview
deriving DecidableEq, Repr

/-- How `ServeHTTP` stops: it returns, or it panics on a nil pointer dereference. -/
inductive Outcome where
  | returned (e : Exec)
  | panicked (e : Exec)
deriving DecidableEq, Repr

/-- Lines 58 to 63: `body` stays nil unless `r.Body` is present and `ReadAll` succeeds. -/
def readBody : Body → Bytes
  | Body.absent => []
  | Body.unreadable => []
  | Body.data b => b

/-- Lines 109 to 128 of `ServeHTTP`: the response envelope is built, the request's objects are
reset, the envelope is marshalled and written.  `calls` are the calls made so far. -/
def respond (json : EncodingJSON) (w : ResponseWriter) (calls : List Call)
    (ar : AdmissionReview) (reviewResponse : Option AdmissionResponse) : Outcome :=
  -- response := admission.AdmissionReview{}
  -- if reviewResponse != nil { response.Response = reviewResponse; response.Response.UID = ar.Request.UID }
  let assembled : Option AdmissionReview :=
    match reviewResponse with
    | none => some {}
    | some rr =>
      match ar.Request with
      | none => none
      | some req => some { Response := some { rr with UID := req.UID } }
  match assembled with
  | none => Outcome.panicked ⟨w, calls, some ar⟩
  | some response =>
    -- ar.Request.Object = runtime.RawExtension{}; ar.Request.OldObject = runtime.RawExtension{}
    match ar.Request with
    | none => Outcome.panicked ⟨w, calls, some ar⟩
    | some req =>
      let ar1 : AdmissionReview := { ar with Request := some { req with Object := {}, OldObject := {} } }
      -- resp, err := json.Marshal(response); the error is logged
      let resp : Bytes := json.marshalled response
      let w1 := w.setHeader "Content-Type" "application/json"
      let w2 := w1.WriteHeader StatusOK
      let w3 := w2.Write resp
      Outcome.returned ⟨w3, calls ++ [Call.Marshal response], some ar1⟩

/-- The method `graffitiHandler.ServeHTTP`. -/
def ServeHTTP (json : EncodingJSON) (h : graffitiHandler) (w : ResponseWriter) (r : Request) :
    Outcome :=
  let url := r.URL.Path
  let body : Bytes := readBody r.Body
  -- verify the http method is a POST
  if r.Method ≠ "POST" then
    let w1 := w.setHeader "Content-Type" "text/plain"
    let w2 := w1.WriteHeader StatusMethodNotAllowed
    let w3 := w2.WriteString "invalid http method"
    Outcome.returned ⟨w3, [], none⟩
  else
    -- verify the content type is accurate
    let contentType := r.Header.Get "Content-Type"
    if contentType ≠ "application/json" then
      let w1 := w.setHeader "Content-Type" "text/plain"
      let w2 := w1.WriteHeader StatusBadRequest
      let w3 := w2.WriteString "invalid request - payload is not json"
      Outcome.returned ⟨w3, [], none⟩
    else
      let d := (NewDecoder body).DisallowUnknownFields
      match json.Decode d with
      | Except.error _ =>
        let w1 := w.setHeader "Content-Type" "text/plain"
        let w2 := w1.WriteHeader StatusBadRequest
        let w3 := w2.WriteString "The request does not contain a valid AdmissionReview object"
        Outcome.returned ⟨w3, [Call.Decode d], none⟩
      | Except.ok ar =>
        -- reviewResponse := &admission.AdmissionResponse{}
        match h.tagmap.lookup url with
        | none =>
          -- reviewResponse.Allowed = true
          respond json w [Call.Decode d] ar (some { Allowed := true })
        | some mutator =>
          -- reviewResponse = mutator.MutateAdmission(ar.Request); what the call wrote through
          -- the pointer is what `ar.Request` refers to from here on
          respond json w [Call.Decode d, Call.MutateAdmission url ar.Request]
            { ar with Request := ar.Request.map mutator.after }
            (mutator.MutateAdmission ar.Request)

/-! ## Sample collaborators

Concrete stand-ins for `encoding/json` and for mutators, used to run the handler on concrete
requests.  On the bodies and envelopes listed they answer as `encoding/json` does; anything
else is reported as an error. -/

/-- The body `{}`. -/
def emptyObjectBody : Bytes := bytesOf "\x7b\x7d"

/-- The body `{"unknownField":1}`. -/
def unknownFieldBody : Bytes := bytesOf "\x7b\"unknownField\":1\x7d"

/-- The raw object `{"kind":"Namespace"}`. -/
def namespaceObject : Bytes := bytesOf "\x7b\"kind\":\"Namespace\"\x7d"

/-- The body `{"request":{"uid":"abc-123","object":{"kind":"Namespace"}}}`. -/
def reviewBody : Bytes :=
  bytesOf "\x7b\"request\":\x7b\"uid\":\"abc-123\",\"object\":\x7b\"kind\":\"Namespace\"\x7d\x7d\x7d"

/-- The request that `reviewBody` decodes to. -/
def reviewRequest : AdmissionRequest := { UID := "abc-123", Object := { Raw := namespaceObject } }

/-- Decoding of the sample bodies: the empty input is an `EOF` error, `{}` is the zero envelope,
an unknown field is an error exactly when unknown fields are disallowed. -/
def sampleDecode (d : Decoder) : Except JSONError AdmissionReview :=
  if d.input = [] then Except.error ⟨"EOF"⟩
  else if d.input = emptyObjectBody then Except.ok {}
  else if d.input = unknownFieldBody then
    if d.disallowUnknownFields then Except.error ⟨"json: unknown field \"unknownField\""⟩
    else Except.ok {}
  else if d.input = reviewBody then Except.ok { Request := some reviewRequest }
  else Except.error ⟨"not a sample body"⟩

/-- Marshalling of the sample envelopes. -/
def sampleMarshal (v : AdmissionReview) : Except JSONError Bytes :=
  if v = {} then Except.ok (bytesOf "\x7b\x7d")
  else if v = { Response := some { UID := "abc-123", Allowed := true } } then
    Except.ok (bytesOf "\x7b\"response\":\x7b\"uid\":\"abc-123\",\"allowed\":true\x7d\x7d")
  else if v = { Response := some { UID := "abc-123", Allowed := false,
                                   Result := some { Reason := "blocked" } } } then
    Except.ok (bytesOf
      "\x7b\"response\":\x7b\"uid\":\"abc-123\",\"allowed\":false,\"status\":\x7b\"metadata\":\x7b\x7d,\"reason\":\"blocked\"\x7d\x7d\x7d")
  else if v = { Response := some { UID := "rewritten", Allowed := true } } then
    Except.ok (bytesOf "\x7b\"response\":\x7b\"uid\":\"rewritten\",\"allowed\":true\x7d\x7d")
  else Except.error ⟨"not a sample envelope"⟩

/-- The sample `encoding/json`. -/
def sampleJSON : EncodingJSON := { Decode := sampleDecode, Marshal := sampleMarshal }

/-- A sample `encoding/json` whose `Marshal` always fails. -/
def failingMarshalJSON : EncodingJSON :=
  { Decode := sampleDecode, Marshal := fun _ => Except.error ⟨"marshal failed"⟩ }

/-- The shape of `metav1.GroupVersionKind`. -/
def groupVersionKindType : GoType :=
  GoType.struct (Fields.ofList
    [("group", GoType.leaf), ("version", GoType.leaf), ("kind", GoType.leaf)])

/-- The shape of `metav1.GroupVersionResource`. -/
def groupVersionResourceType : GoType :=
  GoType.struct (Fields.ofList
    [("group", GoType.leaf), ("version", GoType.leaf), ("resource", GoType.leaf)])

/-- The shape of `authenticationv1.UserInfo`. -/
def userInfoType : GoType :=
  GoType.struct (Fields.ofList
    [("username", GoType.leaf), ("uid", GoType.leaf), ("groups", GoType.list GoType.leaf),
     ("extra", GoType.dict (GoType.list GoType.leaf))])

/-- The shape of `metav1.Status`. -/
def statusType : GoType :=
  GoType.struct (Fields.ofList
    [("kind", GoType.leaf), ("apiVersion", GoType.leaf),
     ("metadata", GoType.struct (Fields.ofList
        [("selfLink", GoType.leaf), ("resourceVersion", GoType.leaf),
         ("continue", GoType.leaf)])),
     ("status", GoType.leaf), ("message", GoType.leaf), ("reason", GoType.leaf),
     ("details", GoType.struct (Fields.ofList
        [("name", GoType.leaf), ("group", GoType.leaf), ("kind", GoType.leaf),
         ("uid", GoType.leaf),
         ("causes", GoType.list (GoType.struct (Fields.ofList
            [("reason", GoType.leaf), ("message", GoType.leaf), ("field", GoType.leaf)]))),
         ("retryAfterSeconds", GoType.leaf)])),
     ("code", GoType.leaf)])

/-- The shape of the `AdmissionReview` of `k8s.io/api/admission/v1beta1`, with the JSON fields
its releases have in common.  The objects are raw extensions, hence leaves. -/
def reviewType : GoType :=
  GoType.struct (Fields.ofList
    [("kind", GoType.leaf), ("apiVersion", GoType.leaf),
     ("request", GoType.struct (Fields.ofList
        [("uid", GoType.leaf), ("kind", groupVersionKindType),
         ("resource", groupVersionResourceType), ("subResource", GoType.leaf),
         ("name", GoType.leaf), ("namespace", GoType.leaf), ("operation", GoType.leaf),
         ("userInfo", userInfoType), ("object", GoType.leaf), ("oldObject", GoType.leaf)])),
     ("response", GoType.struct (Fields.ofList
        [("uid", GoType.leaf), ("allowed", GoType.leaf), ("status", statusType),
         ("patch", GoType.leaf), ("patchType", GoType.leaf)]))])

/-- The body `{"REQUEST":{"uid":"abc-123"}}`. -/
def upperKeyBody : Bytes := bytesOf "\x7b\"REQUEST\":\x7b\"uid\":\"abc-123\"\x7d\x7d"

/-- The JSON value of `upperKeyBody`. -/
def upperKeyValue : JSON :=
  JSON.object (Members.cons "REQUEST"
    (JSON.object (Members.cons "uid" (JSON.string "abc-123") Members.nil)) Members.nil)

/-- The JSON value of `unknownFieldBody`. -/
def unknownFieldValue : JSON :=
  JSON.object (Members.cons "unknownField" (JSON.number "1") Members.nil)

/-- Scanning of the sample bodies. -/
def sampleParse (b : Bytes) : Except JSONError JSON :=
  if b = [] then Except.error ⟨"EOF"⟩
  else if b = upperKeyBody then Except.ok upperKeyValue
  else if b = unknownFieldBody then Except.ok unknownFieldValue
  else Except.error ⟨"not a sample body"⟩

/-- Decoding of the sample values when unknown keys are ignored: the key `REQUEST` is decoded
into the field `request`, the key `unknownField` is skipped. -/
def sampleBuild : JSON → Except JSONError AdmissionReview
  | JSON.object (Members.cons "REQUEST"
      (JSON.object (Members.cons "uid" (JSON.string uid) Members.nil)) Members.nil) =>
    Except.ok { Request := some { UID := uid } }
  | JSON.object (Members.cons "unknownField" (JSON.number _) Members.nil) => Except.ok {}
  | _ => Except.error ⟨"not a sample value"⟩

/-- The sample decoder with the walk of `encoding/json`. -/
def sampleGoJSON : GoJSON :=
  { parse := sampleParse, schema := reviewType, build := sampleBuild, Marshal := sampleMarshal }

/-- A mutator that rejects every request with the reason `blocked`; the UID it returns is not
the request's. -/
def blockingMutator : graffitiMutator :=
  { MutateAdmission := fun _ =>
      some { UID := "stale", Allowed := false, Result := some { Reason := "blocked" } } }

/-- A mutator that returns the nil response. -/
def nilMutator : graffitiMutator := { MutateAdmission := fun _ => none }

/-- A mutator that allows every request and, before it returns, overwrites the UID of the
request it was handed with `rewritten`. -/
def restampingMutator : graffitiMutator :=
  { MutateAdmission := fun _ => some { UID := "", Allowed := true },
    after := fun req => { req with UID := "rewritten" } }

/-- A handler with `restampingMutator` under `/restamp`. -/
def restampHandler : graffitiHandler := newGraffitiHandler.addRule "/restamp" restampingMutator

/-- A handler with `blockingMutator` under `/block` and `nilMutator` under `/nil`. -/
def sampleHandler : graffitiHandler :=
  (newGraffitiHandler.addRule "/block" blockingMutator).addRule "/nil" nilMutator

/-- A POST of `body` to `path` with `Content-Type: application/json`. -/
def postJSON (path : String) (body : Body) : Request :=
  { Method := "POST", URL := { Path := path },
    Header := ⟨[("Content-Type", ["application/json"])]⟩, Body := body }

/-- A POST of the sample review to a path without a rule, with `Content-Type: text/plain`. -/
def postTextPlain : Request :=
  { Method := "POST", URL := { Path := "/unregistered" },
    Header := ⟨[("Content-Type", ["text/plain"])]⟩, Body := Body.data reviewBody }

/-- The state in which `ServeHTTP` is expected to return for the sample review posted to
`/block`: status 200, the marshalled rejection with the UID of the request, and the decoded
request with its objects reset. -/
def blockedExec : Exec :=
  { w :=
      { header := ⟨[("Content-Type", ["application/json"])]⟩,
        wroteHeader := true,
        status := 200,
        sent := ⟨[("Content-Type", ["application/json"])]⟩,
        headerWrites := 1,
        body := bytesOf
          "\x7b\"response\":\x7b\"uid\":\"abc-123\",\"allowed\":false,\"status\":\x7b\"metadata\":\x7b\x7d,\"reason\":\"blocked\"\x7d\x7d\x7d" },
    calls :=
      [Call.Decode { input := reviewBody, disallowUnknownFields := true },
       Call.MutateAdmission "/block" (some reviewRequest),
       Call.Marshal
         { Response := some
             { UID := "abc-123", Allowed := false, Result := some { Reason := "blocked" } } }],
    ar := some { Request := some { UID := "abc-123" } } }

/-! ## Properties -/

/-- The plain-text response with the given status and message, written to a fresh writer. -/
theorem plain_response_fields (code : Nat) (msg : String) :
    (((ResponseWriter.fresh.setHeader "Content-Type" "text/plain").WriteHeader code).WriteString
        msg).wroteHeader = true ∧
    (((ResponseWriter.fresh.setHeader "Content-Type" "text/plain").WriteHeader code).WriteString
        msg).headerWrites = 1 ∧
    (((ResponseWriter.fresh.setHeader "Content-Type" "text/plain").WriteHeader code).WriteString
        msg).status = code ∧
    (((ResponseWriter.fresh.setHeader "Content-Type" "text/plain").WriteHeader code).WriteString
        msg).sent.Get "Content-Type" = "text/plain" ∧
    (((ResponseWriter.fresh.setHeader "Content-Type" "text/plain").WriteHeader code).WriteString
        msg).body = bytesOf msg :=
  ⟨rfl, rfl, rfl, rfl, rfl⟩

/-- The JSON response with the given body, written to a fresh writer. -/
theorem json_response_fields (resp : Bytes) :
    (((ResponseWriter.fresh.setHeader "Content-Type" "application/json").WriteHeader
        StatusOK).Write resp).wroteHeader = true ∧
    (((ResponseWriter.fresh.setHeader "Content-Type" "application/json").WriteHeader
        StatusOK).Write resp).headerWrites = 1 ∧
    (((ResponseWriter.fresh.setHeader "Content-Type" "application/json").WriteHeader
        StatusOK).Write resp).status = 200 ∧
    (((ResponseWriter.fresh.setHeader "Content-Type" "application/json").WriteHeader
        StatusOK).Write resp).sent.Get "Content-Type" = "application/json" ∧
    (((ResponseWriter.fresh.setHeader "Content-Type" "application/json").WriteHeader
        StatusOK).Write resp).body = resp :=
  ⟨rfl, rfl, rfl, rfl, rfl⟩

/-- The run of `ServeHTTP` on a request whose method is not `POST`. -/
theorem ServeHTTP_of_method (json : EncodingJSON) (h : graffitiHandler) (w : ResponseWriter)
    (r : Request) (hmethod : r.Method ≠ "POST") :
    ServeHTTP json h w r = Outcome.returned
      ⟨((w.setHeader "Content-Type" "text/plain").WriteHeader StatusMethodNotAllowed).WriteString
        "invalid http method", [], none⟩ := by
  unfold ServeHTTP
  exact if_pos hmethod

/-- The run of `ServeHTTP` on a POST whose content type is not `application/json`. -/
theorem ServeHTTP_of_content_type (json : EncodingJSON) (h : graffitiHandler)
    (w : ResponseWriter) (r : Request) (hmethod : r.Method = "POST")
    (hct : r.Header.Get "Content-Type" ≠ "application/json") :
    ServeHTTP json h w r = Outcome.returned
      ⟨((w.setHeader "Content-Type" "text/plain").WriteHeader StatusBadRequest).WriteString
        "invalid request - payload is not json", [], none⟩ := by
  unfold ServeHTTP
  rw [if_neg (not_not.mpr hmethod)]
  exact if_pos hct

/-- The run of `ServeHTTP` on a JSON POST whose body the decoder rejects. -/
theorem ServeHTTP_of_decode_error (json : EncodingJSON) (h : graffitiHandler)
    (w : ResponseWriter) (r : Request) (err : JSONError) (hmethod : r.Method = "POST")
    (hct : r.Header.Get "Content-Type" = "application/json")
    (hdec : json.Decode (NewDecoder (readBody r.Body)).DisallowUnknownFields = Except.error err) :
    ServeHTTP json h w r = Outcome.returned
      ⟨((w.setHeader "Content-Type" "text/plain").WriteHeader StatusBadRequest).WriteString
        "The request does not contain a valid AdmissionReview object",
       [Call.Decode (NewDecoder (readBody r.Body)).DisallowUnknownFields], none⟩ := by
  unfold ServeHTTP
  rw [if_neg (not_not.mpr hmethod), if_neg (not_not.mpr hct)]
  simp only [hdec]

/-- The run of `ServeHTTP` on a JSON POST whose body decodes, for a path without a rule. -/
theorem ServeHTTP_of_miss (json : EncodingJSON) (h : graffitiHandler)
    (w : ResponseWriter) (r : Request) (ar : AdmissionReview) (hmethod : r.Method = "POST")
    (hct : r.Header.Get "Content-Type" = "application/json")
    (hdec : json.Decode (NewDecoder (readBody r.Body)).DisallowUnknownFields = Except.ok ar)
    (hmiss : h.tagmap.lookup r.URL.Path = none) :
    ServeHTTP json h w r =
      respond json w [Call.Decode (NewDecoder (readBody r.Body)).DisallowUnknownFields] ar
        (some { Allowed := true }) := by
  unfold ServeHTTP
  rw [if_neg (not_not.mpr hmethod), if_neg (not_not.mpr hct)]
  simp only [hdec, hmiss]

/-- The run of `ServeHTTP` on a JSON POST whose body decodes, for a path with a rule. -/
theorem ServeHTTP_of_hit (json : EncodingJSON) (h : graffitiHandler)
    (w : ResponseWriter) (r : Request) (ar : AdmissionReview) (m : graffitiMutator)
    (hmethod : r.Method = "POST")
    (hct : r.Header.Get "Content-Type" = "application/json")
    (hdec : json.Decode (NewDecoder (readBody r.Body)).DisallowUnknownFields = Except.ok ar)
    (hhit : h.tagmap.lookup r.URL.Path = some m) :
    ServeHTTP json h w r =
      respond json w [Call.Decode (NewDecoder (readBody r.Body)).DisallowUnknownFields,
          Call.MutateAdmission r.URL.Path ar.Request]
        { ar with Request := ar.Request.map m.after }
        (m.MutateAdmission ar.Request) := by
  unfold ServeHTTP
  rw [if_neg (not_not.mpr hmethod), if_neg (not_not.mpr hct)]
  simp only [hdec, hhit]

/-- The run of `respond` when the decoded envelope has a request. -/
theorem respond_of_request (json : EncodingJSON) (w : ResponseWriter) (calls : List Call)
    (ar : AdmissionReview) (req : AdmissionRequest) (rr : Option AdmissionResponse)
    (hreq : ar.Request = some req) :
    respond json w calls ar rr = Outcome.returned
      ⟨((w.setHeader "Content-Type" "application/json").WriteHeader StatusOK).Write
          (json.marshalled { Response := rr.map (fun x => { x with UID := req.UID }) }),
       calls ++ [Call.Marshal { Response := rr.map (fun x => { x with UID := req.UID }) }],
       some { ar with Request := some { req with Object := {}, OldObject := {} } }⟩ := by
  unfold respond
  cases rr <;> simp [hreq]

/-- The run of `respond` when the decoded envelope has no request: a nil pointer dereference,
before anything is written. -/
theorem respond_of_no_request (json : EncodingJSON) (w : ResponseWriter) (calls : List Call)
    (ar : AdmissionReview) (rr : Option AdmissionResponse) (hreq : ar.Request = none) :
    respond json w calls ar rr = Outcome.panicked ⟨w, calls, some ar⟩ := by
  unfold respond
  cases rr <;> simp [hreq]

/-- C1: a request whose method is not exactly `POST` is answered with status 405, Content-Type
`text/plain` and the body `invalid http method`, in one response; the handler makes no call to
the decoder, to a mutator or to the marshaller, whatever the headers, body, path and routing
table are. -/
theorem ServeHTTP_method_not_allowed (json : EncodingJSON) (h : graffitiHandler) (r : Request)
    (hmethod : r.Method ≠ "POST") :
    ∃ e, ServeHTTP json h ResponseWriter.fresh r = Outcome.returned e ∧
      e.w.wroteHeader = true ∧ e.w.headerWrites = 1 ∧ e.w.status = 405 ∧
      e.w.sent.Get "Content-Type" = "text/plain" ∧
      e.w.body = bytesOf "invalid http method" ∧
      e.calls = [] := by
  obtain ⟨h1, h2, h3, h4, h5⟩ := plain_response_fields StatusMethodNotAllowed "invalid http method"
  exact ⟨_, ServeHTTP_of_method json h _ r hmethod, h1, h2, h3, h4, h5, rfl⟩

/-- Witness of C1: a GET of the sample review, sent as JSON to a path that has a rule. -/
theorem ServeHTTP_method_not_allowed_witness :
    ({ postJSON "/block" (Body.data reviewBody) with Method := "GET" } : Request).Method ≠ "POST" ∧
    ∃ e, ServeHTTP sampleJSON sampleHandler ResponseWriter.fresh
        { postJSON "/block" (Body.data reviewBody) with Method := "GET" } = Outcome.returned e ∧
      e.w.wroteHeader = true ∧ e.w.headerWrites = 1 ∧ e.w.status = 405 ∧
      e.w.sent.Get "Content-Type" = "text/plain" ∧
      e.w.body = bytesOf "invalid http method" ∧
      e.calls = [] :=
  ⟨by decide, ServeHTTP_method_not_allowed sampleJSON sampleHandler _ (by decide)⟩

/-- C2: a POST whose `Content-Type` header is anything but exactly `application/json` (the
absent header reads as the empty string) is answered with status 400 and Content-Type
`text/plain`, in one response; the handler makes no call to the decoder, to a mutator or to the
marshaller. -/
theorem ServeHTTP_bad_content_type (json : EncodingJSON) (h : graffitiHandler) (r : Request)
    (hmethod : r.Method = "POST")
    (hct : r.Header.Get "Content-Type" ≠ "application/json") :
    (({} : Header).Get "Content-Type" = "") ∧
    ∃ e, ServeHTTP json h ResponseWriter.fresh r = Outcome.returned e ∧
      e.w.wroteHeader = true ∧ e.w.headerWrites = 1 ∧ e.w.status = 400 ∧
      e.w.sent.Get "Content-Type" = "text/plain" ∧
      e.calls = [] := by
  obtain ⟨h1, h2, h3, h4, _⟩ :=
    plain_response_fields StatusBadRequest "invalid request - payload is not json"
  exact ⟨rfl, _, ServeHTTP_of_content_type json h _ r hmethod hct, h1, h2, h3, h4, rfl⟩

/-- Witness of C2: the sample review posted with `application/json; charset=utf-8` to a path
that has a rule. -/
theorem ServeHTTP_bad_content_type_witness :
    ({ postJSON "/block" (Body.data reviewBody) with
        Header := ⟨[("Content-Type", ["application/json; charset=utf-8"])]⟩ } : Request).Method
      = "POST" ∧
    ({ postJSON "/block" (Body.data reviewBody) with
        Header := ⟨[("Content-Type", ["application/json; charset=utf-8"])]⟩ } : Request).Header.Get
      "Content-Type" ≠ "application/json" ∧
    (({} : Header).Get "Content-Type" = "") ∧
    ∃ e, ServeHTTP sampleJSON sampleHandler ResponseWriter.fresh
        { postJSON "/block" (Body.data reviewBody) with
          Header := ⟨[("Content-Type", ["application/json; charset=utf-8"])]⟩ }
        = Outcome.returned e ∧
      e.w.wroteHeader = true ∧ e.w.headerWrites = 1 ∧ e.w.status = 400 ∧
      e.w.sent.Get "Content-Type" = "text/plain" ∧
      e.calls = [] :=
  ⟨by decide, by decide,
   ServeHTTP_bad_content_type sampleJSON sampleHandler _ (by decide) (by decide)⟩

/-- C3, as stated, fails: for the POST with `Content-Type: text/plain` the 400 response body does
not contain the text `not application/json`. -/
theorem ServeHTTP_text_plain_body_counterexample :
    ∃ e, ServeHTTP sampleJSON sampleHandler ResponseWriter.fresh postTextPlain
        = Outcome.returned e ∧
      e.w.status = 400 ∧
      ¬ (bytesOf "not application/json" <:+: e.w.body) :=
  ⟨_, ServeHTTP_of_content_type sampleJSON sampleHandler _ postTextPlain (by decide) (by decide),
   by decide, by decide⟩

/-- C3, amended: for every POST rejected by the content-type check the body of the 400 response
is exactly `invalid request - payload is not json`, which contains the text `not json`. -/
theorem ServeHTTP_bad_content_type_body (json : EncodingJSON) (h : graffitiHandler)
    (r : Request) (hmethod : r.Method = "POST")
    (hct : r.Header.Get "Content-Type" ≠ "application/json") :
    ∃ e, ServeHTTP json h ResponseWriter.fresh r = Outcome.returned e ∧
      e.w.status = 400 ∧
      e.w.body = bytesOf "invalid request - payload is not json" ∧
      bytesOf "not json" <:+: e.w.body := by
  obtain ⟨_, _, h3, _, h5⟩ :=
    plain_response_fields StatusBadRequest "invalid request - payload is not json"
  refine ⟨_, ServeHTTP_of_content_type json h _ r hmethod hct, h3, h5, ?_⟩
  rw [h5]
  decide

/-- Witness of C3, amended: the POST with `Content-Type: text/plain`. -/
theorem ServeHTTP_bad_content_type_body_witness :
    postTextPlain.Method = "POST" ∧
    postTextPlain.Header.Get "Content-Type" ≠ "application/json" ∧
    ∃ e, ServeHTTP sampleJSON sampleHandler ResponseWriter.fresh postTextPlain
        = Outcome.returned e ∧
      e.w.status = 400 ∧
      e.w.body = bytesOf "invalid request - payload is not json" ∧
      bytesOf "not json" <:+: e.w.body :=
  ⟨by decide, by decide,
   ServeHTTP_bad_content_type_body sampleJSON sampleHandler _ (by decide) (by decide)⟩

/-- C4: a JSON POST whose body fails strict decoding is answered with status 400, Content-Type
`text/plain` and the body `The request does not contain a valid AdmissionReview object`, in one
response; the only call made is the one to the strict decoder, so no envelope is marshalled and
no mutator runs, whatever the routing table holds.  The decoder is given the body read from
the request, which is the empty input when the body is absent or unreadable. -/
theorem ServeHTTP_decode_failure (json : EncodingJSON) (h : graffitiHandler) (r : Request)
    (err : JSONError) (hmethod : r.Method = "POST")
    (hct : r.Header.Get "Content-Type" = "application/json")
    (hdec : json.Decode { input := readBody r.Body, disallowUnknownFields := true }
      = Except.error err) :
    readBody Body.absent = [] ∧ readBody Body.unreadable = [] ∧ readBody (Body.data []) = [] ∧
    ∃ e, ServeHTTP json h ResponseWriter.fresh r = Outcome.returned e ∧
      e.w.wroteHeader = true ∧ e.w.headerWrites = 1 ∧ e.w.status = 400 ∧
      e.w.sent.Get "Content-Type" = "text/plain" ∧
      e.w.body = bytesOf "The request does not contain a valid AdmissionReview object" ∧
      e.calls = [Call.Decode { input := readBody r.Body, disallowUnknownFields := true }] := by
  obtain ⟨h1, h2, h3, h4, h5⟩ := plain_response_fields StatusBadRequest
    "The request does not contain a valid AdmissionReview object"
  exact ⟨rfl, rfl, rfl, _, ServeHTTP_of_decode_error json h _ r err hmethod hct hdec,
    h1, h2, h3, h4, h5, rfl⟩

/-- Witness of C4: a JSON POST without a body, to a path that has a rule. -/
theorem ServeHTTP_decode_failure_witness :
    (postJSON "/block" Body.absent).Method = "POST" ∧
    (postJSON "/block" Body.absent).Header.Get "Content-Type" = "application/json" ∧
    sampleJSON.Decode
        { input := readBody (postJSON "/block" Body.absent).Body, disallowUnknownFields := true }
      = Except.error ⟨"EOF"⟩ ∧
    readBody Body.absent = [] ∧ readBody Body.unreadable = [] ∧ readBody (Body.data []) = [] ∧
    ∃ e, ServeHTTP sampleJSON sampleHandler ResponseWriter.fresh (postJSON "/block" Body.absent)
        = Outcome.returned e ∧
      e.w.wroteHeader = true ∧ e.w.headerWrites = 1 ∧ e.w.status = 400 ∧
      e.w.sent.Get "Content-Type" = "text/plain" ∧
      e.w.body = bytesOf "The request does not contain a valid AdmissionReview object" ∧
      e.calls = [Call.Decode
        { input := readBody (postJSON "/block" Body.absent).Body,
          disallowUnknownFields := true }] :=
  ⟨by decide, by decide, by decide,
   ServeHTTP_decode_failure sampleJSON sampleHandler _ ⟨"EOF"⟩ (by decide) (by decide)
     (by decide)⟩

/-- C5: a JSON POST whose body decodes to an envelope with a request, sent to a path that is
not a key of the routing table, is answered with status 200 and Content-Type
`application/json`, in one response; the envelope that is marshalled and written has the
response `Allowed = true` with the UID of the request, no patch and no result; the only
calls made are the decoding and the marshalling, so no mutator runs. -/
theorem ServeHTTP_no_rule_allows (json : EncodingJSON) (h : graffitiHandler) (r : Request)
    (ar : AdmissionReview) (req : AdmissionRequest) (hmethod : r.Method = "POST")
    (hct : r.Header.Get "Content-Type" = "application/json")
    (hdec : json.Decode { input := readBody r.Body, disallowUnknownFields := true }
      = Except.ok ar)
    (hreq : ar.Request = some req)
    (hmiss : ∀ p ∈ h.tagmap, p.1 ≠ r.URL.Path) :
    ∃ e, ServeHTTP json h ResponseWriter.fresh r = Outcome.returned e ∧
      e.w.wroteHeader = true ∧ e.w.headerWrites = 1 ∧ e.w.status = 200 ∧
      e.w.sent.Get "Content-Type" = "application/json" ∧
      e.calls = [Call.Decode { input := readBody r.Body, disallowUnknownFields := true },
        Call.Marshal
          { Kind := "", APIVersion := "", Request := none,
            Response := some
              { UID := req.UID, Allowed := true, Result := none, Patch := [], PatchType := none } }] ∧
      e.w.body = json.marshalled
          { Kind := "", APIVersion := "", Request := none,
            Response := some
              { UID := req.UID, Allowed := true, Result := none, Patch := [], PatchType := none } } := by
  have hlook : h.tagmap.lookup r.URL.Path = none := by
    rw [List.lookup_eq_none_iff]
    intro p hp
    simpa using fun heq => hmiss p hp heq.symm
  have hrun := ServeHTTP_of_miss json h ResponseWriter.fresh r ar hmethod hct hdec hlook
  rw [respond_of_request json _ _ ar req _ hreq] at hrun
  obtain ⟨h1, h2, h3, h4, h5⟩ := json_response_fields
    (json.marshalled { Response := some { UID := req.UID, Allowed := true } })
  exact ⟨_, hrun, h1, h2, h3, h4, rfl, h5⟩

/-- Witness of C5: the sample review (UID `abc-123`) posted to a path without a rule. -/
theorem ServeHTTP_no_rule_allows_witness :
    (postJSON "/unregistered" (Body.data reviewBody)).Method = "POST" ∧
    (postJSON "/unregistered" (Body.data reviewBody)).Header.Get "Content-Type"
      = "application/json" ∧
    sampleJSON.Decode { input := readBody (postJSON "/unregistered" (Body.data reviewBody)).Body,
                        disallowUnknownFields := true }
      = Except.ok { Request := some reviewRequest } ∧
    (∀ p ∈ sampleHandler.tagmap,
      p.1 ≠ (postJSON "/unregistered" (Body.data reviewBody)).URL.Path) ∧
    ∃ e, ServeHTTP sampleJSON sampleHandler ResponseWriter.fresh
        (postJSON "/unregistered" (Body.data reviewBody)) = Outcome.returned e ∧
      e.w.wroteHeader = true ∧ e.w.headerWrites = 1 ∧ e.w.status = 200 ∧
      e.w.sent.Get "Content-Type" = "application/json" ∧
      e.calls = [Call.Decode
          { input := readBody (postJSON "/unregistered" (Body.data reviewBody)).Body,
            disallowUnknownFields := true },
        Call.Marshal
          { Kind := "", APIVersion := "", Request := none,
            Response := some
              { UID := reviewRequest.UID, Allowed := true, Result := none, Patch := [],
                PatchType := none } }] ∧
      e.w.body = sampleJSON.marshalled
          { Kind := "", APIVersion := "", Request := none,
            Response := some
              { UID := reviewRequest.UID, Allowed := true, Result := none, Patch := [],
                PatchType := none } } :=
  have hkeys : ∀ p ∈ sampleHandler.tagmap,
      p.1 ≠ (postJSON "/unregistered" (Body.data reviewBody)).URL.Path := by
    intro p hp
    simp [sampleHandler, newGraffitiHandler, graffitiHandler.addRule] at hp
    rcases hp with rfl | rfl <;> decide
  ⟨by decide, by decide, by decide, hkeys,
   ServeHTTP_no_rule_allows sampleJSON sampleHandler _ { Request := some reviewRequest }
     reviewRequest (by decide) (by decide)
     (by decide) rfl hkeys⟩

/-- C6, as stated, fails on two requests.  The sample review posted to `/nil`, whose mutator
returns the nil response, is answered with status 200 and the marshalled envelope `{}`, which
has no response and so no UID.  The same review (UID `abc-123`) posted to `/restamp`, whose
mutator overwrites the UID of the request it is handed, is answered with status 200 and a
response whose UID is `rewritten`, not the UID that came in. -/
theorem ServeHTTP_rule_uid_counterexample :
    (sampleHandler.tagmap.lookup "/nil" = some nilMutator ∧
     ∃ e, ServeHTTP sampleJSON sampleHandler ResponseWriter.fresh
         (postJSON "/nil" (Body.data reviewBody)) = Outcome.returned e ∧
       e.w.status = 200 ∧
       e.calls = [Call.Decode { input := reviewBody, disallowUnknownFields := true },
         Call.MutateAdmission "/nil" (some reviewRequest),
         Call.Marshal { Kind := "", APIVersion := "", Request := none, Response := none }] ∧
       e.w.body = emptyObjectBody) ∧
    (restampHandler.tagmap.lookup "/restamp" = some restampingMutator ∧
     reviewRequest.UID = "abc-123" ∧
     ∃ e, ServeHTTP sampleJSON restampHandler ResponseWriter.fresh
         (postJSON "/restamp" (Body.data reviewBody)) = Outcome.returned e ∧
       e.w.status = 200 ∧
       e.calls = [Call.Decode { input := reviewBody, disallowUnknownFields := true },
         Call.MutateAdmission "/restamp" (some reviewRequest),
         Call.Marshal
           { Kind := "", APIVersion := "", Request := none,
             Response := some
               { UID := "rewritten", Allowed := true, Result := none, Patch := [],
                 PatchType := none } }] ∧
       e.w.body = bytesOf
         "\x7b\"response\":\x7b\"uid\":\"rewritten\",\"allowed\":true\x7d\x7d") := by
  have hnil : sampleHandler.tagmap.lookup "/nil" = some nilMutator := by
    simp [sampleHandler, newGraffitiHandler, graffitiHandler.addRule]
  have hre : restampHandler.tagmap.lookup "/restamp" = some restampingMutator := by
    simp [restampHandler, newGraffitiHandler, graffitiHandler.addRule]
  have hrun1 := ServeHTTP_of_hit sampleJSON sampleHandler ResponseWriter.fresh
    (postJSON "/nil" (Body.data reviewBody)) { Request := some reviewRequest } nilMutator
    (by decide) (by decide) (by decide) hnil
  rw [respond_of_request sampleJSON _ _ _ (nilMutator.after reviewRequest) _ rfl] at hrun1
  have hrun2 := ServeHTTP_of_hit sampleJSON restampHandler ResponseWriter.fresh
    (postJSON "/restamp" (Body.data reviewBody)) { Request := some reviewRequest }
    restampingMutator (by decide) (by decide) (by decide) hre
  rw [respond_of_request sampleJSON _ _ _ (restampingMutator.after reviewRequest) _ rfl] at hrun2
  exact ⟨⟨hnil, _, hrun1, by decide, rfl, by decide⟩,
    ⟨hre, rfl, _, hrun2, by decide, rfl, by decide⟩⟩

/-- C6, amended: a JSON POST whose body decodes to an envelope with a request, sent to a
path that has a mutator, is answered with status 200 and Content-Type `application/json`, in
one response; the mutator is called exactly once, with the decoded request.  When it returns a
response, the marshalled envelope carries that response with every field as returned except
the UID, which is the UID the request holds when the mutator has returned: the UID that came
in whenever the mutator has not overwritten it.  When it returns nil, the marshalled envelope
has no response. -/
theorem ServeHTTP_rule_response (json : EncodingJSON) (h : graffitiHandler) (r : Request)
    (ar : AdmissionReview) (req : AdmissionRequest) (m : graffitiMutator)
    (hmethod : r.Method = "POST")
    (hct : r.Header.Get "Content-Type" = "application/json")
    (hdec : json.Decode { input := readBody r.Body, disallowUnknownFields := true }
      = Except.ok ar)
    (hreq : ar.Request = some req)
    (hhit : h.tagmap.lookup r.URL.Path = some m) :
    ∃ e v, ServeHTTP json h ResponseWriter.fresh r = Outcome.returned e ∧
      e.w.wroteHeader = true ∧ e.w.headerWrites = 1 ∧ e.w.status = 200 ∧
      e.w.sent.Get "Content-Type" = "application/json" ∧
      e.calls = [Call.Decode { input := readBody r.Body, disallowUnknownFields := true },
        Call.MutateAdmission r.URL.Path (some req), Call.Marshal v] ∧
      e.w.body = json.marshalled v ∧
      v.Kind = "" ∧ v.APIVersion = "" ∧ v.Request = none ∧
      (∀ rr, m.MutateAdmission (some req) = some rr →
        v.Response = some { UID := (m.after req).UID, Allowed := rr.Allowed,
                            Result := rr.Result, Patch := rr.Patch,
                            PatchType := rr.PatchType }) ∧
      (∀ rr, m.MutateAdmission (some req) = some rr → (m.after req).UID = req.UID →
        v.Response = some { UID := req.UID, Allowed := rr.Allowed, Result := rr.Result,
                            Patch := rr.Patch, PatchType := rr.PatchType }) ∧
      (m.MutateAdmission (some req) = none → v.Response = none) := by
  have hrun := ServeHTTP_of_hit json h ResponseWriter.fresh r ar m hmethod hct hdec hhit
  have hafter : ({ ar with Request := ar.Request.map m.after } : AdmissionReview).Request
      = some (m.after req) := by
    simp [hreq]
  rw [respond_of_request json _ _ _ (m.after req) _ hafter, hreq] at hrun
  obtain ⟨h1, h2, h3, h4, h5⟩ := json_response_fields (json.marshalled
    { Response := (m.MutateAdmission (some req)).map
        (fun x => { x with UID := (m.after req).UID }) })
  refine ⟨_, _, hrun, h1, h2, h3, h4, rfl, h5, rfl, rfl, rfl, ?_, ?_, ?_⟩
  · intro rr hrr
    simp [hrr]
  · intro rr hrr huid
    simp [hrr, huid]
  · intro hnil
    simp [hnil]

/-- Witness of C6, amended: the sample review posted to `/block`, whose mutator rejects with
the reason `blocked` and a UID of its own, and leaves the request as it was. -/
theorem ServeHTTP_rule_response_witness :
    (postJSON "/block" (Body.data reviewBody)).Method = "POST" ∧
    (postJSON "/block" (Body.data reviewBody)).Header.Get "Content-Type" = "application/json" ∧
    sampleJSON.Decode { input := readBody (postJSON "/block" (Body.data reviewBody)).Body,
                        disallowUnknownFields := true }
      = Except.ok { Request := some reviewRequest } ∧
    sampleHandler.tagmap.lookup (postJSON "/block" (Body.data reviewBody)).URL.Path
      = some blockingMutator ∧
    ∃ e v, ServeHTTP sampleJSON sampleHandler ResponseWriter.fresh
        (postJSON "/block" (Body.data reviewBody)) = Outcome.returned e ∧
      e.w.wroteHeader = true ∧ e.w.headerWrites = 1 ∧ e.w.status = 200 ∧
      e.w.sent.Get "Content-Type" = "application/json" ∧
      e.calls = [Call.Decode
          { input := readBody (postJSON "/block" (Body.data reviewBody)).Body,
            disallowUnknownFields := true },
        Call.MutateAdmission (postJSON "/block" (Body.data reviewBody)).URL.Path
          (some reviewRequest),
        Call.Marshal v] ∧
      e.w.body = sampleJSON.marshalled v ∧
      v.Kind = "" ∧ v.APIVersion = "" ∧ v.Request = none ∧
      (∀ rr, blockingMutator.MutateAdmission (some reviewRequest) = some rr →
        v.Response = some { UID := (blockingMutator.after reviewRequest).UID,
                            Allowed := rr.Allowed, Result := rr.Result, Patch := rr.Patch,
                            PatchType := rr.PatchType }) ∧
      (∀ rr, blockingMutator.MutateAdmission (some reviewRequest) = some rr →
        (blockingMutator.after reviewRequest).UID = reviewRequest.UID →
        v.Response = some { UID := reviewRequest.UID, Allowed := rr.Allowed,
                            Result := rr.Result, Patch := rr.Patch,
                            PatchType := rr.PatchType }) ∧
      (blockingMutator.MutateAdmission (some reviewRequest) = none → v.Response = none) :=
  have hhit : sampleHandler.tagmap.lookup (postJSON "/block" (Body.data reviewBody)).URL.Path
      = some blockingMutator := by
    simp [sampleHandler, newGraffitiHandler, graffitiHandler.addRule, postJSON, List.lookup]
  ⟨by decide, by decide, by decide, hhit,
   ServeHTTP_rule_response sampleJSON sampleHandler _ { Request := some reviewRequest }
     reviewRequest blockingMutator (by decide) (by decide) (by decide) rfl hhit⟩

/-- Every run of `ServeHTTP` on a fresh writer takes one of five forms: the three plain-text
rejections, the panic on a decoded envelope without a request, or the JSON response. -/
theorem ServeHTTP_cases (json : EncodingJSON) (h : graffitiHandler) (r : Request) :
    (r.Method ≠ "POST" ∧
      ServeHTTP json h ResponseWriter.fresh r = Outcome.returned
        ⟨((ResponseWriter.fresh.setHeader "Content-Type" "text/plain").WriteHeader
            StatusMethodNotAllowed).WriteString "invalid http method", [], none⟩) ∨
    (r.Method = "POST" ∧ r.Header.Get "Content-Type" ≠ "application/json" ∧
      ServeHTTP json h ResponseWriter.fresh r = Outcome.returned
        ⟨((ResponseWriter.fresh.setHeader "Content-Type" "text/plain").WriteHeader
            StatusBadRequest).WriteString "invalid request - payload is not json", [], none⟩) ∨
    (∃ err, json.Decode (NewDecoder (readBody r.Body)).DisallowUnknownFields = Except.error err ∧
      ServeHTTP json h ResponseWriter.fresh r = Outcome.returned
        ⟨((ResponseWriter.fresh.setHeader "Content-Type" "text/plain").WriteHeader
            StatusBadRequest).WriteString
            "The request does not contain a valid AdmissionReview object",
         [Call.Decode (NewDecoder (readBody r.Body)).DisallowUnknownFields], none⟩) ∨
    (∃ ar calls,
      json.Decode (NewDecoder (readBody r.Body)).DisallowUnknownFields = Except.ok ar ∧
      ar.Request = none ∧
      ServeHTTP json h ResponseWriter.fresh r
        = Outcome.panicked ⟨ResponseWriter.fresh, calls, some ar⟩) ∨
    (∃ (ar : AdmissionReview) (req req1 : AdmissionRequest) (calls : List Call)
        (rr : Option AdmissionResponse),
      json.Decode (NewDecoder (readBody r.Body)).DisallowUnknownFields = Except.ok ar ∧
      ar.Request = some req ∧
      (∀ c ∈ calls, c.isMarshal = false) ∧
      ServeHTTP json h ResponseWriter.fresh r = Outcome.returned
        ⟨((ResponseWriter.fresh.setHeader "Content-Type" "application/json").WriteHeader
            StatusOK).Write
            (json.marshalled { Response := rr.map (fun x => { x with UID := req1.UID }) }),
         calls ++ [Call.Marshal { Response := rr.map (fun x => { x with UID := req1.UID }) }],
         some { ar with Request := some { req1 with Object := {}, OldObject := {} } }⟩) := by
  by_cases hmethod : r.Method = "POST"
  swap
  · exact Or.inl ⟨hmethod, ServeHTTP_of_method json h _ r hmethod⟩
  by_cases hct : r.Header.Get "Content-Type" = "application/json"
  swap
  · exact Or.inr (Or.inl ⟨hmethod, hct, ServeHTTP_of_content_type json h _ r hmethod hct⟩)
  cases hdec : json.Decode (NewDecoder (readBody r.Body)).DisallowUnknownFields with
  | error err =>
    exact Or.inr (Or.inr (Or.inl
      ⟨err, rfl, ServeHTTP_of_decode_error json h _ r err hmethod hct hdec⟩))
  | ok ar =>
    right; right; right
    cases hlook : h.tagmap.lookup r.URL.Path with
    | none =>
      have hrun := ServeHTTP_of_miss json h ResponseWriter.fresh r ar hmethod hct hdec hlook
      cases hreq : ar.Request with
      | none =>
        rw [respond_of_no_request json _ _ ar _ hreq] at hrun
        exact Or.inl ⟨ar, _, rfl, hreq, hrun⟩
      | some req =>
        rw [respond_of_request json _ _ ar req _ hreq] at hrun
        refine Or.inr ⟨ar, req, req, _, _, rfl, hreq, ?_, hrun⟩
        simp [Call.isMarshal]
    | some m =>
      have hrun := ServeHTTP_of_hit json h ResponseWriter.fresh r ar m hmethod hct hdec hlook
      cases hreq : ar.Request with
      | none =>
        have hsame : ({ ar with Request := ar.Request.map m.after } : AdmissionReview) = ar := by
          cases ar
          simp_all
        rw [hsame, respond_of_no_request json _ _ ar _ hreq] at hrun
        exact Or.inl ⟨ar, _, rfl, hreq, hrun⟩
      | some req =>
        have hafter : ({ ar with Request := ar.Request.map m.after } : AdmissionReview).Request
            = some (m.after req) := by
          simp [hreq]
        rw [respond_of_request json _ _ _ (m.after req) _ hafter] at hrun
        refine Or.inr ⟨ar, req, m.after req, _, _, rfl, hreq, ?_, hrun⟩
        simp [Call.isMarshal]

/-- Every run of `ServeHTTP` on a fresh writer either returns after exactly one response, with
status 200, 400 or 405, or is the panic on a decoded envelope without a request, with nothing
written. -/
theorem ServeHTTP_one_response_or_panic (json : EncodingJSON) (h : graffitiHandler)
    (r : Request) :
    (∃ e, ServeHTTP json h ResponseWriter.fresh r = Outcome.returned e ∧
      e.w.wroteHeader = true ∧ e.w.headerWrites = 1 ∧
      (e.w.status = 200 ∨ e.w.status = 400 ∨ e.w.status = 405)) ∨
    (∃ e ar, ServeHTTP json h ResponseWriter.fresh r = Outcome.panicked e ∧
      json.Decode { input := readBody r.Body, disallowUnknownFields := true } = Except.ok ar ∧
      ar.Request = none ∧ e.w = ResponseWriter.fresh) := by
  rcases ServeHTTP_cases json h r with ⟨_, hc⟩ | ⟨_, _, hc⟩ | ⟨_, _, hc⟩ | ⟨ar, _, hd, hr, hc⟩ |
    ⟨_, _, _, _, _, _, _, _, hc⟩
  · obtain ⟨h1, h2, h3, _, _⟩ :=
      plain_response_fields StatusMethodNotAllowed "invalid http method"
    exact Or.inl ⟨_, hc, h1, h2, Or.inr (Or.inr h3)⟩
  · obtain ⟨h1, h2, h3, _, _⟩ :=
      plain_response_fields StatusBadRequest "invalid request - payload is not json"
    exact Or.inl ⟨_, hc, h1, h2, Or.inr (Or.inl h3)⟩
  · obtain ⟨h1, h2, h3, _, _⟩ := plain_response_fields StatusBadRequest
      "The request does not contain a valid AdmissionReview object"
    exact Or.inl ⟨_, hc, h1, h2, Or.inr (Or.inl h3)⟩
  · exact Or.inr ⟨_, ar, hc, hd, hr, rfl⟩
  · obtain ⟨h1, h2, h3, _, _⟩ := json_response_fields _
    exact Or.inl ⟨_, hc, h1, h2, Or.inl h3⟩

/-- C7, on the code: the JSON POST with the body `{}`, which decodes to an envelope without a
request, makes `ServeHTTP` panic on the nil request before anything is written to the
response, both for a path without a rule and for a path whose mutator has run. -/
theorem ServeHTTP_empty_object_panics :
    sampleJSON.Decode { input := emptyObjectBody, disallowUnknownFields := true }
      = Except.ok { Kind := "", APIVersion := "", Request := none, Response := none } ∧
    ServeHTTP sampleJSON sampleHandler ResponseWriter.fresh
        (postJSON "/unregistered" (Body.data emptyObjectBody))
      = Outcome.panicked
          ⟨ResponseWriter.fresh,
           [Call.Decode { input := emptyObjectBody, disallowUnknownFields := true }],
           some { Kind := "", APIVersion := "", Request := none, Response := none }⟩ ∧
    ServeHTTP sampleJSON sampleHandler ResponseWriter.fresh
        (postJSON "/block" (Body.data emptyObjectBody))
      = Outcome.panicked
          ⟨ResponseWriter.fresh,
           [Call.Decode { input := emptyObjectBody, disallowUnknownFields := true },
            Call.MutateAdmission "/block" none],
           some { Kind := "", APIVersion := "", Request := none, Response := none }⟩ ∧
    ResponseWriter.fresh.wroteHeader = false ∧ ResponseWriter.fresh.headerWrites = 0 := by
  refine ⟨by decide, by decide, by decide, rfl, rfl⟩

/-- C8: whenever `ServeHTTP` returns with status 200, exactly one envelope was marshalled, its
bytes are the body written, and that envelope was built fresh: its request portion is absent
(so it carries no `Object` and no `OldObject`) and its kind and version are empty, whatever
the incoming request held; the handler's own copy of the request has both objects reset. -/
theorem ServeHTTP_response_without_request (json : EncodingJSON) (h : graffitiHandler)
    (r : Request) (e : Exec)
    (hrun : ServeHTTP json h ResponseWriter.fresh r = Outcome.returned e)
    (hok : e.w.status = 200) :
    ∃ v, e.calls.filter Call.isMarshal = [Call.Marshal v] ∧
      e.w.body = json.marshalled v ∧
      v.Request = none ∧ v.Kind = "" ∧ v.APIVersion = "" ∧
      ∃ ar req, e.ar = some ar ∧ ar.Request = some req ∧
        req.Object = { Raw := [] } ∧ req.OldObject = { Raw := [] } := by
  rcases ServeHTTP_cases json h r with ⟨_, hc⟩ | ⟨_, _, hc⟩ | ⟨_, _, hc⟩ | ⟨_, _, _, _, hc⟩ |
    ⟨ar, _, req, calls, rr, _, _, hcalls, hc⟩
  · rw [hc] at hrun
    cases hrun
    exact absurd ((plain_response_fields _ _).2.2.1.symm.trans hok) (by decide)
  · rw [hc] at hrun
    cases hrun
    exact absurd ((plain_response_fields _ _).2.2.1.symm.trans hok) (by decide)
  · rw [hc] at hrun
    cases hrun
    exact absurd ((plain_response_fields _ _).2.2.1.symm.trans hok) (by decide)
  · rw [hc] at hrun
    cases hrun
  · rw [hc] at hrun
    cases hrun
    refine ⟨{ Response := rr.map (fun x => { x with UID := req.UID }) }, ?_,
      (json_response_fields _).2.2.2.2, rfl, rfl, rfl, _, _, rfl, rfl, rfl, rfl⟩
    have hnil : calls.filter Call.isMarshal = [] := by
      rw [List.filter_eq_nil_iff]
      intro c hcmem
      simp [hcalls c hcmem]
    simp [List.filter_append, hnil, Call.isMarshal]

/-- Witness of C8: the sample review, which carries an object, posted to `/block`. -/
theorem ServeHTTP_response_without_request_witness :
    ServeHTTP sampleJSON sampleHandler ResponseWriter.fresh
        (postJSON "/block" (Body.data reviewBody)) = Outcome.returned blockedExec ∧
    blockedExec.w.status = 200 ∧
    ∃ v, blockedExec.calls.filter Call.isMarshal = [Call.Marshal v] ∧
      blockedExec.w.body = sampleJSON.marshalled v ∧
      v.Request = none ∧ v.Kind = "" ∧ v.APIVersion = "" ∧
      ∃ ar req, blockedExec.ar = some ar ∧ ar.Request = some req ∧
        req.Object = { Raw := [] } ∧ req.OldObject = { Raw := [] } :=
  ⟨by decide, by decide,
   ServeHTTP_response_without_request sampleJSON sampleHandler
     (postJSON "/block" (Body.data reviewBody)) blockedExec (by decide) (by decide)⟩

/-- A key that is the name of no field, exactly or ignoring letter case, has no field. -/
theorem findField_eq_none (key : String) :
    ∀ fs : Fields,
      (∀ n ∈ fs.names, (decide (n = key) || equalFold n key) = false) → findField fs key = none
  | Fields.nil => by
    intro _
    rfl
  | Fields.cons n t rest => by
    intro hall
    have hn : (decide (n = key) || equalFold n key) = false :=
      hall n (by simp [Fields.names])
    have hrest : findField rest key = none :=
      findField_eq_none key rest (fun m hm => hall m (by simp [Fields.names, hm]))
    have hne : ¬ n = key := by
      intro heq
      simp [heq] at hn
    have hfold : equalFold n key = false := by
      cases hf : equalFold n key
      · rfl
      · simp [hf] at hn
    unfold findField at hrest ⊢
    simp only [Fields.exact, Fields.folded, hne, hfold, if_false, Bool.false_eq_true]
    exact hrest

/-- The walk of an object into a struct reports a key as soon as one member does. -/
theorem unknownMembers_ne_nil (fs : Fields) (k : String) (v : JSON) :
    ∀ ms : Members, (k, v) ∈ ms.toList →
      (match findField fs k with
       | none => [k]
       | some t => unknownFields t v) ≠ [] →
      unknownMembers fs ms ≠ []
  | Members.nil => by
    intro hmem
    simp [Members.toList] at hmem
  | Members.cons k1 v1 rest => by
    intro hmem hone
    simp only [Members.toList, List.mem_cons, Prod.mk.injEq] at hmem
    simp only [unknownMembers, ne_eq, List.append_eq_nil, not_and]
    intro hhead
    rcases hmem with ⟨hk, hv⟩ | hmem
    · subst hk hv
      exact absurd hhead hone
    · exact unknownMembers_ne_nil fs k v rest hmem hone

/-- The walk of an array into a slice reports a key as soon as one element does. -/
theorem unknownElems_ne_nil (e : GoType) (x : JSON) :
    ∀ xs : Elems, x ∈ xs.toList → unknownFields e x ≠ [] → unknownElems e xs ≠ []
  | Elems.nil => by
    intro hmem
    simp [Elems.toList] at hmem
  | Elems.cons x1 rest => by
    intro hmem hone
    simp only [Elems.toList, List.mem_cons] at hmem
    simp only [unknownElems, ne_eq, List.append_eq_nil, not_and]
    intro hhead
    rcases hmem with hx | hmem
    · subst hx
      exact absurd hhead hone
    · exact unknownElems_ne_nil e x rest hmem hone

/-- The walk of an object into a map reports a key as soon as one value does. -/
theorem unknownEntries_ne_nil (e : GoType) (k : String) (v : JSON) :
    ∀ ms : Members, (k, v) ∈ ms.toList → unknownFields e v ≠ [] → unknownEntries e ms ≠ []
  | Members.nil => by
    intro hmem
    simp [Members.toList] at hmem
  | Members.cons k1 v1 rest => by
    intro hmem hone
    simp only [Members.toList, List.mem_cons, Prod.mk.injEq] at hmem
    simp only [unknownEntries, ne_eq, List.append_eq_nil, not_and]
    intro hhead
    rcases hmem with ⟨_, hv⟩ | hmem
    · subst hv
      exact absurd hhead hone
    · exact unknownEntries_ne_nil e k v rest hmem hone

/-- The walk reports every key that matches no field even ignoring letter case. -/
theorem unknownFields_ne_nil (schema : GoType) (j : JSON) (hkey : FieldUnmatched schema j) :
    unknownFields schema j ≠ [] := by
  unfold FieldUnmatched at hkey
  induction hkey with
  | key fs ms k v hmem hnone =>
    simp only [unknownFields]
    apply unknownMembers_ne_nil fs k v ms hmem
    rw [findField_eq_none k fs hnone]
    simp
  | field fs ms k v t hmem hfield _ ih =>
    simp only [unknownFields]
    apply unknownMembers_ne_nil fs k v ms hmem
    rw [hfield]
    exact ih
  | elem e xs x hmem _ ih =>
    simp only [unknownFields]
    exact unknownElems_ne_nil e x xs hmem ih
  | entry e ms k v hmem _ ih =>
    simp only [unknownFields]
    exact unknownEntries_ne_nil e k v ms hmem ih

/-- A key that matches no field even ignoring letter case is in particular the name of no
field: every value with an unmatched key contains a field that is not in the schema. -/
theorem FieldUnmatched.notInSchema (schema : GoType) (j : JSON)
    (hkey : FieldUnmatched schema j) : FieldNotInSchema schema j := by
  unfold FieldUnmatched at hkey
  unfold FieldNotInSchema
  induction hkey with
  | key fs ms k v hmem hnone =>
    refine KeyOutside.key fs ms k v hmem (fun n hn => ?_)
    have hboth := hnone n hn
    simp only [Bool.or_eq_false_iff] at hboth
    exact hboth.1
  | field fs ms k v t hmem hfield _ ih => exact KeyOutside.field fs ms k v t hmem hfield ih
  | elem e xs x hmem _ ih => exact KeyOutside.elem e xs x hmem ih
  | entry e ms k v hmem _ ih => exact KeyOutside.entry e ms k v hmem ih

/-- With unknown fields disallowed, the decoder returns an error on an input whose value has
a key that matches no field. -/
theorem GoJSON.Decode_unmatched (g : GoJSON) (input : Bytes) (j : JSON)
    (hparse : g.parse input = Except.ok j) (hkey : FieldUnmatched g.schema j) :
    ∃ err, g.Decode { input := input, disallowUnknownFields := true } = Except.error err := by
  have hne := unknownFields_ne_nil g.schema j hkey
  unfold GoJSON.Decode
  simp only [hparse, if_true]
  cases hu : unknownFields g.schema j with
  | nil => exact absurd hu hne
  | cons k rest => exact ⟨_, rfl⟩

/-- C9, as stated, fails: the body `{"REQUEST":{"uid":"abc-123"}}` is valid JSON and its key
`REQUEST` is the name of no field of the schema, yet the strict decoder takes it for the field
`request`, decoding succeeds, and the POST to a path without a rule is answered with status
200 and the allowing response, not with status 400. -/
theorem ServeHTTP_folded_key_counterexample :
    sampleGoJSON.parse upperKeyBody = Except.ok upperKeyValue ∧
    FieldNotInSchema reviewType upperKeyValue ∧
    sampleGoJSON.Decode { input := upperKeyBody, disallowUnknownFields := true }
      = Except.ok { Request := some { UID := "abc-123" } } ∧
    ∃ e, ServeHTTP sampleGoJSON.toEncodingJSON sampleHandler ResponseWriter.fresh
        (postJSON "/unregistered" (Body.data upperKeyBody)) = Outcome.returned e ∧
      e.w.status = 200 ∧
      e.calls = [Call.Decode { input := upperKeyBody, disallowUnknownFields := true },
        Call.Marshal
          { Kind := "", APIVersion := "", Request := none,
            Response := some
              { UID := "abc-123", Allowed := true, Result := none, Patch := [],
                PatchType := none } }] ∧
      e.w.body = bytesOf "\x7b\"response\":\x7b\"uid\":\"abc-123\",\"allowed\":true\x7d\x7d" := by
  have hdec : sampleGoJSON.Decode { input := upperKeyBody, disallowUnknownFields := true }
      = Except.ok { Request := some { UID := "abc-123" } } := by
    decide
  have hmiss : sampleHandler.tagmap.lookup
      (postJSON "/unregistered" (Body.data upperKeyBody)).URL.Path = none := by
    simp [sampleHandler, newGraffitiHandler, graffitiHandler.addRule, postJSON, List.lookup]
  have hrun := ServeHTTP_of_miss sampleGoJSON.toEncodingJSON sampleHandler ResponseWriter.fresh
    (postJSON "/unregistered" (Body.data upperKeyBody)) { Request := some { UID := "abc-123" } }
    (by decide) (by decide) hdec hmiss
  rw [respond_of_request _ _ _ _ { UID := "abc-123" } _ rfl] at hrun
  refine ⟨rfl, ?_, hdec, _, hrun, by decide, rfl, by decide⟩
  exact KeyOutside.key _ _ "REQUEST"
    (JSON.object (Members.cons "uid" (JSON.string "abc-123") Members.nil))
    (by simp [Members.toList]) (by decide)

/-- C9, amended: a JSON POST whose body is valid JSON and holds, where an object is decoded
into a struct of the schema, a key that matches no field of that struct even when letter case
is ignored, fails to decode and is answered with status 400, Content-Type `text/plain` and the
body `The request does not contain a valid AdmissionReview object`; the only call made is
the one to the decoder, with unknown fields disallowed.  This holds for every scanner, every
schema and every routing table. -/
theorem ServeHTTP_unmatched_key_rejected (g : GoJSON) (h : graffitiHandler) (r : Request)
    (j : JSON) (hmethod : r.Method = "POST")
    (hct : r.Header.Get "Content-Type" = "application/json")
    (hparse : g.parse (readBody r.Body) = Except.ok j)
    (hkey : FieldUnmatched g.schema j) :
    (∃ err, g.Decode { input := readBody r.Body, disallowUnknownFields := true }
      = Except.error err) ∧
    ∃ e, ServeHTTP g.toEncodingJSON h ResponseWriter.fresh r = Outcome.returned e ∧
      e.w.wroteHeader = true ∧ e.w.headerWrites = 1 ∧ e.w.status = 400 ∧
      e.w.sent.Get "Content-Type" = "text/plain" ∧
      e.w.body = bytesOf "The request does not contain a valid AdmissionReview object" ∧
      e.calls = [Call.Decode { input := readBody r.Body, disallowUnknownFields := true }] := by
  obtain ⟨err, hdec⟩ := GoJSON.Decode_unmatched g (readBody r.Body) j hparse hkey
  obtain ⟨h1, h2, h3, h4, h5⟩ := plain_response_fields StatusBadRequest
    "The request does not contain a valid AdmissionReview object"
  exact ⟨⟨err, hdec⟩, _,
    ServeHTTP_of_decode_error g.toEncodingJSON h _ r err hmethod hct hdec,
    h1, h2, h3, h4, h5, rfl⟩

/-- Witness of C9, amended: the body `{"unknownField":1}` posted to a path that has a rule;
without the flag the sample decoder accepts the body. -/
theorem ServeHTTP_unmatched_key_rejected_witness :
    (postJSON "/block" (Body.data unknownFieldBody)).Method = "POST" ∧
    (postJSON "/block" (Body.data unknownFieldBody)).Header.Get "Content-Type"
      = "application/json" ∧
    sampleGoJSON.parse (readBody (postJSON "/block" (Body.data unknownFieldBody)).Body)
      = Except.ok unknownFieldValue ∧
    FieldUnmatched sampleGoJSON.schema unknownFieldValue ∧
    sampleGoJSON.Decode { input := unknownFieldBody, disallowUnknownFields := false }
      = Except.ok { Kind := "", APIVersion := "", Request := none, Response := none } ∧
    (∃ err, sampleGoJSON.Decode
        { input := readBody (postJSON "/block" (Body.data unknownFieldBody)).Body,
          disallowUnknownFields := true }
      = Except.error err) ∧
    ∃ e, ServeHTTP sampleGoJSON.toEncodingJSON sampleHandler ResponseWriter.fresh
        (postJSON "/block" (Body.data unknownFieldBody)) = Outcome.returned e ∧
      e.w.wroteHeader = true ∧ e.w.headerWrites = 1 ∧ e.w.status = 400 ∧
      e.w.sent.Get "Content-Type" = "text/plain" ∧
      e.w.body = bytesOf "The request does not contain a valid AdmissionReview object" ∧
      e.calls = [Call.Decode
        { input := readBody (postJSON "/block" (Body.data unknownFieldBody)).Body,
          disallowUnknownFields := true }] :=
  have hparse : sampleGoJSON.parse
      (readBody (postJSON "/block" (Body.data unknownFieldBody)).Body)
      = Except.ok unknownFieldValue := by
    rfl
  have hkey : FieldUnmatched sampleGoJSON.schema unknownFieldValue :=
    KeyOutside.key _ _ "unknownField" (JSON.number "1") (by simp [Members.toList])
      (by decide)
  ⟨by decide, by decide, hparse, hkey, by decide,
   ServeHTTP_unmatched_key_rejected sampleGoJSON sampleHandler
     (postJSON "/block" (Body.data unknownFieldBody)) unknownFieldValue
     (by decide) (by decide) hparse hkey⟩

/-- C10: once the method, content-type and decode checks have passed and the decoded envelope
has a request, `ServeHTTP` writes one response with status 200 and Content-Type
`application/json` whether or not marshalling the response envelope succeeds: when it
succeeds the body is the marshalled bytes, when it fails the body is empty. -/
theorem ServeHTTP_status_ignores_marshal (json : EncodingJSON) (h : graffitiHandler)
    (r : Request) (ar : AdmissionReview) (req : AdmissionRequest)
    (hmethod : r.Method = "POST")
    (hct : r.Header.Get "Content-Type" = "application/json")
    (hdec : json.Decode { input := readBody r.Body, disallowUnknownFields := true }
      = Except.ok ar)
    (hreq : ar.Request = some req) :
    ∃ e v, ServeHTTP json h ResponseWriter.fresh r = Outcome.returned e ∧
      e.calls.filter Call.isMarshal = [Call.Marshal v] ∧
      e.w.wroteHeader = true ∧ e.w.headerWrites = 1 ∧ e.w.status = 200 ∧
      e.w.sent.Get "Content-Type" = "application/json" ∧
      (∀ b, json.Marshal v = Except.ok b → e.w.body = b) ∧
      (∀ err, json.Marshal v = Except.error err → e.w.body = []) := by
  rcases ServeHTTP_cases json h r with ⟨hc, _⟩ | ⟨_, hc, _⟩ | ⟨err, hc, _⟩ | ⟨ar1, _, hc, hc1, _⟩ |
    ⟨ar1, _, req1, calls, rr, _, _, hcalls, hc⟩
  · exact absurd hmethod hc
  · exact absurd hct hc
  · have hd : json.Decode (NewDecoder (readBody r.Body)).DisallowUnknownFields
        = Except.ok ar := hdec
    rw [hd] at hc
    cases hc
  · have hd : json.Decode (NewDecoder (readBody r.Body)).DisallowUnknownFields
        = Except.ok ar := hdec
    rw [hd] at hc
    cases hc
    rw [hreq] at hc1
    cases hc1
  · obtain ⟨h1, h2, h3, h4, h5⟩ := json_response_fields
      (json.marshalled { Response := rr.map (fun x => { x with UID := req1.UID }) })
    have hnil : calls.filter Call.isMarshal = [] := by
      rw [List.filter_eq_nil_iff]
      intro c hcmem
      simp [hcalls c hcmem]
    refine ⟨_, { Response := rr.map (fun x => { x with UID := req1.UID }) }, hc, ?_,
      h1, h2, h3, h4, ?_, ?_⟩
    · simp [List.filter_append, hnil, Call.isMarshal]
    · intro b hb
      rw [h5]
      simp [EncodingJSON.marshalled, hb]
    · intro err herr
      rw [h5]
      simp [EncodingJSON.marshalled, herr]

/-- Witness of C10: the sample review posted to a path without a rule, with a marshaller that
fails. -/
theorem ServeHTTP_status_ignores_marshal_witness :
    (postJSON "/unregistered" (Body.data reviewBody)).Method = "POST" ∧
    (postJSON "/unregistered" (Body.data reviewBody)).Header.Get "Content-Type"
      = "application/json" ∧
    failingMarshalJSON.Decode
        { input := readBody (postJSON "/unregistered" (Body.data reviewBody)).Body,
          disallowUnknownFields := true }
      = Except.ok { Request := some reviewRequest } ∧
    (∀ v, failingMarshalJSON.Marshal v = Except.error ⟨"marshal failed"⟩) ∧
    ∃ e v, ServeHTTP failingMarshalJSON sampleHandler ResponseWriter.fresh
        (postJSON "/unregistered" (Body.data reviewBody)) = Outcome.returned e ∧
      e.calls.filter Call.isMarshal = [Call.Marshal v] ∧
      e.w.wroteHeader = true ∧ e.w.headerWrites = 1 ∧ e.w.status = 200 ∧
      e.w.sent.Get "Content-Type" = "application/json" ∧
      (∀ b, failingMarshalJSON.Marshal v = Except.ok b → e.w.body = b) ∧
      (∀ err, failingMarshalJSON.Marshal v = Except.error err → e.w.body = []) :=
  ⟨by decide, by decide, by decide, fun _ => rfl,
   ServeHTTP_status_ignores_marshal failingMarshalJSON sampleHandler
     (postJSON "/unregistered" (Body.data reviewBody)) { Request := some reviewRequest }
     reviewRequest (by decide) (by decide) (by decide) rfl⟩

end Webhook
